import Mathlib

/-!
# Endercom Node.js SDK — verification of the dispatch core and HTTP surface

Shallow embedding of the Endercom SDK `Agent` class (`src/index.ts`, the
server-wrapper revision).  JavaScript values that flow through `metadata`
(typed `Record<string, any>`) are modelled by `JsValue` with JS truthiness;
a JS `try/catch` is modelled by `jsTry` over computations that return
their emitted side effects together with an `Except` outcome; each network
call's outcome (the part of the behaviour decided by the remote peer) is an
explicit parameter.  A `fetch` call is recorded as an outbound-request
effect whether or not the network subsequently fails, so "one HTTP POST"
means "one delivery attempt".
-/

/-- A JavaScript value, as far as the SDK inspects one: the SDK only ever
branches on truthiness and forwards values verbatim. -/
inductive JsValue where
  | vUndefined
  | vNull
  | vBool (b : Bool)
  | vNum (n : Int)
  | vStr (s : String)
deriving DecidableEq, Repr

/-- JavaScript truthiness for the values above (`undefined`, `null`,
`false`, `0`, `""` are falsy). -/
def jsTruthy : JsValue → Bool
  | .vUndefined => false
  | .vNull => false
  | .vBool b => b
  | .vNum n => n != 0
  | .vStr s => s != ""

/-- JavaScript `a || b`: `a` when truthy, else `b`. -/
def jsOr (a b : JsValue) : JsValue :=
  if jsTruthy a then a else b

/-- The `Message` interface of the SDK.  `metadata?: Record<string, any>`
is an optional object, modelled as an association list of `JsValue`s. -/
structure Message where
  id : String
  content : String
  request_id : String
  created_at : String
  agent_id : Option String
  metadata : Option (List (String × JsValue))
deriving DecidableEq, Repr

/-- JS property access `metadata.key`: `undefined` on a missing key (the
SDK never reaches this access with `metadata` itself undefined without
first checking its truthiness, but the total model returns `undefined`
there too). -/
def metaLookup (m : Option (List (String × JsValue))) (key : String) : JsValue :=
  match m with
  | none => .vUndefined
  | some l =>
    match l.lookup key with
    | some v => v
    | none => .vUndefined

/-- The routing discriminator of `handleMessage`:
`message.metadata && message.metadata.response_url` as a JS condition. -/
def hasResponseUrl (m : Option (List (String × JsValue))) : Bool :=
  match m with
  | none => false
  | some l => jsTruthy (metaLookup (some l) "response_url")

/-- Where an outbound POST of a `{request_id, content}` payload goes:
either the message-supplied callback URL (`respondViaHttp`) or the
platform per-frequency respond endpoint (`respondToMessage`). -/
inductive Destination where
  | callbackUrl (url : JsValue)
  | respondEndpoint
deriving DecidableEq, Repr

/-- The JSON body `{request_id, content}` POSTed by both delivery paths. -/
structure RespondPayload where
  request_id : JsValue
  content : String
deriving DecidableEq, Repr

/-- The JSON body `{content, target_agent?}` POSTed by `sendMessage`
(`target_agent` is only included when the argument is truthy). -/
structure SendPayload where
  content : String
  target_agent : Option String
deriving DecidableEq, Repr

/-- The JSON body `{content, await, timeout}` POSTed by `talkToAgent`. -/
structure TalkPayload where
  content : String
  await : Bool
  timeout : Int
deriving DecidableEq, Repr

/-- Observable side effects of the SDK: console output and outbound HTTP
requests.  An HTTP effect is recorded at the point of the `fetch` call. -/
inductive Effect where
  | consoleLog (line : String)
  | consoleError (line : String)
  | postRespond (dest : Destination) (payload : RespondPayload)
  | postSend (payload : SendPayload)
  | postTalk (targetAgentId : String) (payload : TalkPayload)
  | getPoll
deriving DecidableEq, Repr

/-- Outcome of a `fetch` whose body the SDK does not read: either the
promise rejects (network error) or a response with a status arrives. -/
inductive FetchOutcome where
  | netError
  | response (status : Nat)
deriving DecidableEq, Repr

/-- `Response.ok`: status in the inclusive range 200–299. -/
def statusOk (status : Nat) : Bool :=
  200 ≤ status && status ≤ 299

/-- A JS computation: the effects it emits, and either a normal result or
a thrown/rejected error. -/
abbrev JsComp (α : Type) := List Effect × Except String α

/-- JS `try { body } catch (e) { handler }`: effects already emitted by
the body survive; a thrown error is routed to the handler. -/
def jsTry {α : Type} (body : JsComp α) (handler : String → JsComp α) : JsComp α :=
  match body with
  | (effs, .ok a) => (effs, .ok a)
  | (effs, .error e) => (effs ++ (handler e).1, (handler e).2)

/-- A message handler: console lines it prints, and its returned string or
thrown/rejected error (`string | Promise<string>` with the dispatch-side
`await` already applied).  Handler-internal side effects other than
console output are outside the dispatch contract. -/
abbrev HandlerFn := Message → List String × Except String String

/-- `defaultMessageHandler`: logs `received: {content}` and returns
`Echo: {content}`. -/
def defaultMessageHandler : HandlerFn :=
  fun message => (["received: " ++ message.content], .ok ("Echo: " ++ message.content))

/-- Console lines of a handler as effects. -/
def handlerLogs (lines : List String) : List Effect :=
  lines.map Effect.consoleLog

/-- `respondViaHttp(responseUrl, requestId, content)`: POST
`{request_id, content}` to the callback URL, no auth header; a non-ok
status is logged; a network error is caught and logged. -/
def respondViaHttp (responseUrl : JsValue) (requestId : JsValue) (content : String)
    (outcome : FetchOutcome) : JsComp Unit :=
  jsTry
    (let postEff := Effect.postRespond (.callbackUrl responseUrl) ⟨requestId, content⟩
     match outcome with
     | .netError => ([postEff], .error "fetch rejected")
     | .response status =>
       (postEff ::
         (if statusOk status then []
          else [.consoleError ("HTTP response error: " ++ toString status)]),
        .ok ()))
    (fun e => ([.consoleError ("Network error sending HTTP response: " ++ e)], .ok ()))

/-- `respondToMessage(requestId, content)`: POST `{request_id, content}`
to `{freqBase}/messages/respond` with bearer auth and the agent header;
a non-ok status is logged; a network error is caught and logged. -/
def respondToMessage (requestId : String) (content : String)
    (outcome : FetchOutcome) : JsComp Unit :=
  jsTry
    (let postEff := Effect.postRespond .respondEndpoint ⟨.vStr requestId, content⟩
     match outcome with
     | .netError => ([postEff], .error "fetch rejected")
     | .response status =>
       (postEff ::
         (if statusOk status then []
          else [.consoleError ("Response error: " ++ toString status)]),
        .ok ()))
    (fun e => ([.consoleError ("Network error sending response: " ++ e)], .ok ()))

/-- `handleMessage(message)`, the dispatch core: resolve the handler
(`this.messageHandler || this.defaultMessageHandler`), await its result,
then route on the truthiness of `message.metadata &&
message.metadata.response_url`: callback delivery with request id
`metadata.request_id || message.request_id`, or queued delivery with
`message.request_id`.  The surrounding `try/catch` logs a handler failure
(the delivery helpers never throw). -/
def handleMessage (custom : Option HandlerFn) (msg : Message)
    (deliver : FetchOutcome) : JsComp Unit :=
  jsTry
    (let handler := custom.getD defaultMessageHandler
     let (hLines, hRes) := handler msg
     match hRes with
     | .error e => (handlerLogs hLines, .error e)
     | .ok responseContent =>
       if hasResponseUrl msg.metadata then
         let (dEffs, dRes) :=
           respondViaHttp (metaLookup msg.metadata "response_url")
             (jsOr (metaLookup msg.metadata "request_id") (.vStr msg.request_id))
             responseContent deliver
         (handlerLogs hLines ++ dEffs, dRes)
       else
         let (dEffs, dRes) := respondToMessage msg.request_id responseContent deliver
         (handlerLogs hLines ++ dEffs, dRes))
    (fun e => ([.consoleError ("Error handling message: " ++ e)], .ok ()))

/-- The destinations of the `{request_id, content}` POSTs in an effect
list, in order. -/
def postsTo (effs : List Effect) : List Destination :=
  effs.filterMap fun e =>
    match e with
    | .postRespond d _ => some d
    | _ => none

/-- The `request_id` fields of the delivered `{request_id, content}`
payloads in an effect list, in order. -/
def deliveredRequestIds (effs : List Effect) : List JsValue :=
  effs.filterMap fun e =>
    match e with
    | .postRespond _ p => some p.request_id
    | _ => none

/-- Is an effect an outbound HTTP POST? -/
def isHttpPost : Effect → Bool
  | .postRespond _ _ => true
  | .postSend _ => true
  | .postTalk _ _ => true
  | _ => false

/-- Number of outbound HTTP POSTs in an effect list. -/
def countPosts (effs : List Effect) : Nat :=
  (effs.filter isHttpPost).length

/-- A raw poll-endpoint message entry before the SDK maps it into a
`Message` (`metadata` may be absent). -/
structure RawMessage where
  id : String
  content : String
  request_id : String
  created_at : String
  agent_id : Option String
  metadata : Option (List (String × JsValue))
deriving DecidableEq, Repr

/-- The per-entry mapping inside `pollMessages`: all fields copied, and
an absent `metadata` defaulted to the empty object (the JS `||` with an
empty object literal). -/
def toMessage (raw : RawMessage) : Message :=
  { id := raw.id, content := raw.content, request_id := raw.request_id,
    created_at := raw.created_at, agent_id := raw.agent_id,
    metadata := some (raw.metadata.getD []) }

/-- Parsed JSON body of the poll endpoint as far as the SDK inspects it:
`data.success` (truthiness) and `data.data?.messages` (present or not;
an empty array is a truthy object). -/
structure PollBody where
  success : Bool
  messages : Option (List RawMessage)
deriving DecidableEq, Repr

/-- Outcome of the poll `fetch`: rejection, or a status with a body that
parses to a `PollBody` (`none` models `response.json()` throwing). -/
inductive PollHttpResult where
  | netError
  | response (status : Nat) (body : Option PollBody)
deriving DecidableEq, Repr

/-- The sequential `for (const message of messages) await
this.handleMessage(message)` loop: `deliver i` is the outcome of the
delivery fetch of the `i`-th dispatched message. -/
def dispatchAll (custom : Option HandlerFn) (deliver : Nat → FetchOutcome) :
    List Message → Nat → List Effect
  | [], _ => []
  | m :: rest, i =>
    (handleMessage custom m (deliver i)).1 ++ dispatchAll custom deliver rest (i + 1)

/-- `pollMessages()`: GET the poll endpoint; on ok parse the body; when
`data.success && data.data?.messages` holds, map each raw entry into a
`Message` and dispatch all of them sequentially; a non-ok status is
logged; a rejection or parse failure is caught and logged. -/
def pollMessages (custom : Option HandlerFn) (pollResult : PollHttpResult)
    (deliver : Nat → FetchOutcome) : JsComp Unit :=
  jsTry
    (match pollResult with
     | .netError => ([.getPoll], .error "fetch rejected")
     | .response status body =>
       if statusOk status then
         match body with
         | none => ([.getPoll], .error "json parse failed")
         | some data =>
           match data.messages with
           | some raws =>
             if data.success then
               (.getPoll :: dispatchAll custom deliver (raws.map toMessage) 0, .ok ())
             else ([.getPoll], .ok ())
           | none => ([.getPoll], .ok ())
       else
         ([.getPoll, .consoleError ("Polling error: " ++ toString status)], .ok ()))
    (fun e => ([.consoleError ("Network error: " ++ e)], .ok ()))

/-- `sendMessage(content, targetAgentId?)`: POST `{content,
target_agent?}` to the send endpoint (`target_agent` included only when
the argument is truthy); returns `response.ok`; a rejection is caught,
logged, and turned into `false`. -/
def sendMessage (content : String) (targetAgentId : Option String)
    (outcome : FetchOutcome) : JsComp Bool :=
  jsTry
    (let payload : SendPayload :=
       ⟨content,
        match targetAgentId with
        | some t => if t != "" then some t else none
        | none => none⟩
     match outcome with
     | .netError => ([.postSend payload], .error "fetch rejected")
     | .response status => ([.postSend payload], .ok (statusOk status)))
    (fun e => ([.consoleError ("Error sending message: " ++ e)], .ok false))

/-- `data.data.response` of the talk endpoint body. -/
structure TalkResponseObj where
  content : String
deriving DecidableEq, Repr

/-- `data.data` of the talk endpoint body (`response` may be absent). -/
structure TalkData where
  response : Option TalkResponseObj
deriving DecidableEq, Repr

/-- Parsed JSON body of the talk endpoint as far as the SDK inspects it:
`data.success` (truthiness), `data.error` (for the log line), and
`data.data` (may be absent). -/
structure TalkBody where
  success : Bool
  error : String
  data : Option TalkData
deriving DecidableEq, Repr

/-- Outcome of the talk `fetch`: rejection, or a status plus a body
(`none` models `response.json()` throwing). -/
inductive TalkHttpResult where
  | netError
  | response (status : Nat) (body : Option TalkBody)
deriving DecidableEq, Repr

/-- `talkToAgent(targetAgentId, content, awaitResponse, timeout)`: POST
`{content, await, timeout}` to the per-target talk endpoint; non-ok
status → log, `null`; `data.success` falsy → log `data.error`, `null`;
then `if (awaitResponse && data.data && data.data.response)` return the
nested `content`, else `null`; any rejection is caught, logged, `null`. -/
def talkToAgent (targetAgentId content : String) (awaitResponse : Bool)
    (timeout : Int) (r : TalkHttpResult) : JsComp (Option String) :=
  jsTry
    (let postEff := Effect.postTalk targetAgentId ⟨content, awaitResponse, timeout⟩
     match r with
     | .netError => ([postEff], .error "fetch rejected")
     | .response status body =>
       if statusOk status then
         match body with
         | none => ([postEff], .error "json parse failed")
         | some data =>
           if data.success then
             match awaitResponse, data.data with
             | true, some d =>
               match d.response with
               | some resp => ([postEff], .ok (some resp.content))
               | none => ([postEff], .ok none)
             | _, _ => ([postEff], .ok none)
           else
             ([postEff, .consoleError ("Talk endpoint error: " ++ data.error)], .ok none)
       else
         ([postEff, .consoleError ("Talk endpoint error: " ++ toString status)], .ok none))
    (fun e => ([.consoleError ("Error talking to agent: " ++ e)], .ok none))

/-- JS `s.split(' ')` on the character list: cut at every single space,
keeping empty pieces (`"a  b"` gives three pieces, `""` gives one). -/
def splitCharsOnSpace : List Char → List (List Char)
  | [] => [[]]
  | c :: rest =>
    let r := splitCharsOnSpace rest
    if c = ' ' then [] :: r
    else
      match r with
      | h :: t => (c :: h) :: t
      | [] => [[c]]

/-- JS `authorization.split(' ')`. -/
def jsSplitOnSpace (s : String) : List String :=
  (splitCharsOnSpace s.data).map fun cs => ⟨cs⟩

/-- The JS `trim` whitespace class, restricted to the characters that can
appear in an HTTP header value (ASCII whitespace). -/
def jsWhitespaceChar (c : Char) : Bool :=
  c = ' ' || c = '\t' || c = '\n' || c = '\r' || c = '\x0b' || c = '\x0c'

/-- JS `s.trim()`: strip leading and trailing whitespace. -/
def jsTrim (s : String) : String :=
  ⟨((s.data.dropWhile jsWhitespaceChar).reverse.dropWhile jsWhitespaceChar).reverse⟩

/-- JS `toLowerCase` on one character (ASCII range, all the comparison
against the literal `"bearer"` can distinguish). -/
def asciiToLower (c : Char) : Char :=
  if 'A' ≤ c ∧ c ≤ 'Z' then Char.ofNat (c.toNat + 32) else c

/-- JS `s.toLowerCase()`. -/
def jsToLower (s : String) : String :=
  ⟨s.data.map asciiToLower⟩

/-- Result of the `authenticateFrequency` middleware on one request:
either a 401 JSON error or passing control to the route handler. -/
inductive AuthResult where
  | unauthorized (error : String)
  | next
deriving DecidableEq, Repr

/-- `authenticateFrequency(req, res, next)`: reject a missing (or, by JS
truthiness, empty) `Authorization` header; split on single spaces and
require exactly two parts with the first case-insensitively `bearer`;
trim the key and reject it when empty; compare the trimmed key against
the configured `frequencyApiKey` by string equality
(`verifyFrequencyApiKey` inlined). -/
def authenticateFrequency (frequencyApiKey : String)
    (authHeader : Option String) : AuthResult :=
  let authorization := authHeader.getD ""
  if authorization = "" then
    .unauthorized
      "Missing Authorization header. Provide: Authorization: Bearer \x7bfrequency_api_key\x7d"
  else
    let parts := jsSplitOnSpace authorization
    if parts.length != 2 || jsToLower (parts.getD 0 "") != "bearer" then
      .unauthorized
        "Invalid Authorization header format. Use: Bearer \x7bfrequency_api_key\x7d"
    else
      let apiKey := jsTrim (parts.getD 1 "")
      if apiKey = "" then
        .unauthorized "API key is empty"
      else if apiKey != frequencyApiKey then
        .unauthorized
          "Invalid frequency API key. The provided key does not match this frequency\x27s auth_key."
      else
        .next

/-- Request body of the POST `/a2a` route. -/
structure A2ABody where
  content : Option String
  message : Option String
deriving DecidableEq, Repr

/-- HTTP result of the `/a2a` route handler. -/
inductive A2AResult where
  | badRequest (error : String)
  | serverError (error : String)
  | okJson (response : String) (timestamp : String)
deriving DecidableEq, Repr

/-- Truthiness of an optional JS string (absent or empty → falsy). -/
def strTruthy (o : Option String) : Bool :=
  o.getD "" != ""

/-- The mock `Message` the `/a2a` route synthesizes: fresh ids from
`Date.now()`, the resolved text, an empty metadata object. -/
def a2aMockMessage (nowMs : Nat) (nowTs : String) (content : String) : Message :=
  { id := "a2a_" ++ toString nowMs, content := content,
    request_id := "a2a_req_" ++ toString nowMs, created_at := nowTs,
    agent_id := none, metadata := some [] }

/-- The POST `/a2a` route handler (authentication already passed):
`messageContent = content || message`; falsy → 400; otherwise synthesize
a mock `Message` (freshids from `Date.now()`, empty metadata), run the
resolved handler, and answer in-band with `{success: true, response,
timestamp}`; a thrown/rejected handler surfaces as a 500. -/
def a2aRoute (custom : Option HandlerFn) (nowMs : Nat) (nowTs : String)
    (body : A2ABody) : List Effect × A2AResult :=
  let messageContent :=
    if strTruthy body.content then body.content.getD "" else body.message.getD ""
  if messageContent = "" then
    ([], .badRequest
      "Either \x27content\x27 or \x27message\x27 field is required in the request body")
  else
    let mockMessage : Message := a2aMockMessage nowMs nowTs messageContent
    let handler := custom.getD defaultMessageHandler
    let (hLines, hRes) := handler mockMessage
    match hRes with
    | .error e =>
      (handlerLogs hLines, .serverError ("Message processing failed: " ++ e))
    | .ok responseContent =>
      (handlerLogs hLines, .okJson responseContent nowTs)

/-- State of the polling loop: the `running` flag, the stored timer
handle `this.pollInterval`, and the timer environment (armed timer ids,
a fresh-id counter) together with the number of `poll()` invocations
currently between their `running` check and their re-arming step. -/
structure LoopState where
  running : Bool
  pollHandle : Option Nat
  activeTimers : List Nat
  pollsInFlight : Nat
  nextTimerId : Nat
deriving DecidableEq, Repr

/-- The state before `run()` is ever called. -/
def initialLoopState : LoopState :=
  { running := false, pollHandle := none, activeTimers := [],
    pollsInFlight := 0, nextTimerId := 0 }

/-- Scheduler-level events of the polling lifecycle, at the granularity
of the code's suspension points. -/
inductive AgentEvent where
  | evRun
  | evStop
  | evTimerFire (t : Nat)
  | evPollDone
deriving DecidableEq, Repr

/-- `run()`: when already running, log and return (no state change);
otherwise set `running` and invoke `poll()`, which sees `running` true
and starts a `pollMessages` cycle. -/
def stepRun (s : LoopState) : LoopState :=
  if s.running then s
  else { s with running := true, pollsInFlight := s.pollsInFlight + 1 }

/-- `stop()`: when not running, return (no state change); otherwise clear
`running` and, when a timer handle is stored, `clearTimeout` it
(clearing an already-fired timer does nothing). -/
def stepStop (s : LoopState) : LoopState :=
  if s.running then
    let s1 := { s with running := false }
    match s1.pollHandle with
    | some t => { s1 with activeTimers := s1.activeTimers.erase t }
    | none => s1
  else s

/-- An armed timer fires: it is consumed, and the `poll` closure runs —
`pollsInFlight` grows only when `running` still holds. -/
def stepTimerFire (s : LoopState) (t : Nat) : LoopState :=
  if t ∈ s.activeTimers then
    let s1 := { s with activeTimers := s.activeTimers.erase t }
    if s1.running then { s1 with pollsInFlight := s1.pollsInFlight + 1 } else s1
  else s

/-- An in-flight `pollMessages` settles and the `poll` closure resumes:
it arms `setTimeout(poll, pollInterval)` and stores the handle —
unconditionally, the closure does not re-check `running` after its
await. -/
def stepPollDone (s : LoopState) : LoopState :=
  if s.pollsInFlight = 0 then s
  else
    { s with pollsInFlight := s.pollsInFlight - 1,
             pollHandle := some s.nextTimerId,
             activeTimers := s.activeTimers ++ [s.nextTimerId],
             nextTimerId := s.nextTimerId + 1 }

/-- One scheduler event. -/
def step (s : LoopState) : AgentEvent → LoopState
  | .evRun => stepRun s
  | .evStop => stepStop s
  | .evTimerFire t => stepTimerFire s t
  | .evPollDone => stepPollDone s

/-- Number of live polling chains: armed timers plus cycles in flight. -/
def activeChains (s : LoopState) : Nat :=
  s.activeTimers.length + s.pollsInFlight

theorem postsTo_append (a b : List Effect) :
    postsTo (a ++ b) = postsTo a ++ postsTo b := by
  simp [postsTo, List.filterMap_append]

theorem deliveredRequestIds_append (a b : List Effect) :
    deliveredRequestIds (a ++ b) = deliveredRequestIds a ++ deliveredRequestIds b := by
  simp [deliveredRequestIds, List.filterMap_append]

theorem countPosts_append (a b : List Effect) :
    countPosts (a ++ b) = countPosts a + countPosts b := by
  simp [countPosts, List.filter_append]

theorem postsTo_handlerLogs (ls : List String) : postsTo (handlerLogs ls) = [] := by
  induction ls with
  | nil => rfl
  | cons h t ih => simp [handlerLogs, postsTo, List.filterMap_cons]

theorem deliveredRequestIds_handlerLogs (ls : List String) :
    deliveredRequestIds (handlerLogs ls) = [] := by
  induction ls with
  | nil => rfl
  | cons h t ih => simp [handlerLogs, deliveredRequestIds, List.filterMap_cons]

theorem countPosts_handlerLogs (ls : List String) : countPosts (handlerLogs ls) = 0 := by
  induction ls with
  | nil => rfl
  | cons h t ih => simp [handlerLogs, countPosts, isHttpPost]

theorem respondViaHttp_eq (u rid : JsValue) (c : String) (o : FetchOutcome) :
    respondViaHttp u rid c o =
      (Effect.postRespond (.callbackUrl u) ⟨rid, c⟩ ::
         (match o with
          | .netError => [.consoleError "Network error sending HTTP response: fetch rejected"]
          | .response s =>
            if statusOk s then []
            else [.consoleError ("HTTP response error: " ++ toString s)]),
       .ok ()) := by
  cases o <;> rfl

theorem respondToMessage_eq (rid c : String) (o : FetchOutcome) :
    respondToMessage rid c o =
      (Effect.postRespond .respondEndpoint ⟨.vStr rid, c⟩ ::
         (match o with
          | .netError => [.consoleError "Network error sending response: fetch rejected"]
          | .response s =>
            if statusOk s then []
            else [.consoleError ("Response error: " ++ toString s)]),
       .ok ()) := by
  cases o <;> rfl

theorem respondViaHttp_postsTo (u rid : JsValue) (c : String) (o : FetchOutcome) :
    postsTo (respondViaHttp u rid c o).1 = [.callbackUrl u] := by
  rw [respondViaHttp_eq]
  cases o with
  | netError => rfl
  | response s =>
    by_cases h : statusOk s <;> simp [h, postsTo, List.filterMap_cons]

theorem respondToMessage_postsTo (rid c : String) (o : FetchOutcome) :
    postsTo (respondToMessage rid c o).1 = [.respondEndpoint] := by
  rw [respondToMessage_eq]
  cases o with
  | netError => rfl
  | response s =>
    by_cases h : statusOk s <;> simp [h, postsTo, List.filterMap_cons]

theorem respondViaHttp_rids (u rid : JsValue) (c : String) (o : FetchOutcome) :
    deliveredRequestIds (respondViaHttp u rid c o).1 = [rid] := by
  rw [respondViaHttp_eq]
  cases o with
  | netError => rfl
  | response s =>
    by_cases h : statusOk s <;> simp [h, deliveredRequestIds, List.filterMap_cons]

theorem respondToMessage_rids (rid c : String) (o : FetchOutcome) :
    deliveredRequestIds (respondToMessage rid c o).1 = [.vStr rid] := by
  rw [respondToMessage_eq]
  cases o with
  | netError => rfl
  | response s =>
    by_cases h : statusOk s <;> simp [h, deliveredRequestIds, List.filterMap_cons]

theorem respondViaHttp_countPosts (u rid : JsValue) (c : String) (o : FetchOutcome) :
    countPosts (respondViaHttp u rid c o).1 = 1 := by
  rw [respondViaHttp_eq]
  cases o with
  | netError => rfl
  | response s =>
    by_cases h : statusOk s <;> simp [h, countPosts, isHttpPost]

theorem respondToMessage_countPosts (rid c : String) (o : FetchOutcome) :
    countPosts (respondToMessage rid c o).1 = 1 := by
  rw [respondToMessage_eq]
  cases o with
  | netError => rfl
  | response s =>
    by_cases h : statusOk s <;> simp [h, countPosts, isHttpPost]

theorem respondViaHttp_snd (u rid : JsValue) (c : String) (o : FetchOutcome) :
    (respondViaHttp u rid c o).2 = .ok () := by
  rw [respondViaHttp_eq]

theorem respondToMessage_snd (rid c : String) (o : FetchOutcome) :
    (respondToMessage rid c o).2 = .ok () := by
  rw [respondToMessage_eq]

theorem handleMessage_eq (custom : Option HandlerFn) (msg : Message) (deliver : FetchOutcome) :
    handleMessage custom msg deliver =
      (match (custom.getD defaultMessageHandler) msg with
       | (hLines, .error e) =>
         (handlerLogs hLines ++ [.consoleError ("Error handling message: " ++ e)], .ok ())
       | (hLines, .ok c) =>
         if hasResponseUrl msg.metadata then
           (handlerLogs hLines ++
              (respondViaHttp (metaLookup msg.metadata "response_url")
                (jsOr (metaLookup msg.metadata "request_id") (.vStr msg.request_id))
                c deliver).1,
            .ok ())
         else
           (handlerLogs hLines ++ (respondToMessage msg.request_id c deliver).1, .ok ())) := by
  rcases hH : (custom.getD defaultMessageHandler) msg with ⟨hLines, hRes⟩
  cases hRes with
  | error e => simp [handleMessage, jsTry, hH]
  | ok c =>
    by_cases hU : hasResponseUrl msg.metadata <;>
      simp [handleMessage, jsTry, hH, hU, respondViaHttp_eq, respondToMessage_eq]

/-- Claim C1 is false as stated: for the message whose metadata binds
`response_url` to the empty string (so the field is set), the single
delivery POST of a successful dispatch goes to the platform respond
endpoint and not to that URL — the code discriminates on truthiness,
not presence. -/
theorem handleMessage_empty_response_url_posts_to_platform :
    metaLookup (some [("response_url", JsValue.vStr "")]) "response_url" = JsValue.vStr "" ∧
    Destination.respondEndpoint ∈
      postsTo (handleMessage none
        ⟨"m1", "hi", "r1", "t1", none, some [("response_url", JsValue.vStr "")]⟩
        (.response 200)).1 ∧
    Destination.callbackUrl (JsValue.vStr "") ∉
      postsTo (handleMessage none
        ⟨"m1", "hi", "r1", "t1", none, some [("response_url", JsValue.vStr "")]⟩
        (.response 200)).1 := by
  refine ⟨rfl, ?_, ?_⟩ <;> decide

/-- Claim C1 (amended: the discriminator is JS truthiness of
`metadata.response_url`, not its presence): when the handler succeeds,
dispatch performs exactly one outbound HTTP POST — to the callback URL
when `metadata.response_url` is truthy, and to the platform respond
endpoint when it is absent or falsy, never both; when the handler
throws, no POST is made. -/
theorem handleMessage_single_post (custom : Option HandlerFn) (msg : Message)
    (deliver : FetchOutcome) :
    postsTo (handleMessage custom msg deliver).1 =
      (match ((custom.getD defaultMessageHandler) msg).2 with
       | .error _ => []
       | .ok _ =>
         [if hasResponseUrl msg.metadata then
            Destination.callbackUrl (metaLookup msg.metadata "response_url")
          else Destination.respondEndpoint]) ∧
    countPosts (handleMessage custom msg deliver).1 =
      (match ((custom.getD defaultMessageHandler) msg).2 with
       | .error _ => 0
       | .ok _ => 1) := by
  rw [handleMessage_eq]
  rcases hH : (custom.getD defaultMessageHandler) msg with ⟨hLines, hRes⟩
  cases hRes with
  | error e =>
    have h1 : postsTo [Effect.consoleError ("Error handling message: " ++ e)] = [] := rfl
    have h2 : countPosts [Effect.consoleError ("Error handling message: " ++ e)] = 0 := rfl
    simp [hH, postsTo_append, postsTo_handlerLogs, countPosts_append, countPosts_handlerLogs,
      h1, h2]
  | ok c =>
    by_cases hU : hasResponseUrl msg.metadata <;>
      simp [hH, hU, postsTo_append, postsTo_handlerLogs, countPosts_append,
        countPosts_handlerLogs, respondViaHttp_postsTo, respondToMessage_postsTo,
        respondViaHttp_countPosts, respondToMessage_countPosts]

/-- Claim C2 is false as stated: for a message whose metadata binds
`request_id` to `"meta"` but has no `response_url`, dispatch delivers via
the platform respond endpoint with the payload `request_id` equal to
`message.request_id` (`"msg"`), not to the present `metadata.request_id`
(`"meta"`) — the metadata override applies only on the callback path. -/
theorem handleMessage_meta_request_id_ignored_on_queue_path :
    metaLookup (some [("request_id", JsValue.vStr "meta")]) "request_id" = JsValue.vStr "meta" ∧
    deliveredRequestIds (handleMessage none
      ⟨"m2", "hi", "msg", "t2", none, some [("request_id", JsValue.vStr "meta")]⟩
      (.response 200)).1 = [JsValue.vStr "msg"] ∧
    JsValue.vStr "msg" ≠ JsValue.vStr "meta" := by
  refine ⟨rfl, ?_, ?_⟩ <;> decide

/-- Claim C2 (amended): the `request_id` of the delivered payload depends
on the delivery path: on the callback path it is `metadata.request_id`
when that value is truthy, else `message.request_id`; on the platform
respond path it is always `message.request_id`. -/
theorem handleMessage_request_id_per_path (custom : Option HandlerFn) (msg : Message)
    (deliver : FetchOutcome) :
    deliveredRequestIds (handleMessage custom msg deliver).1 =
      (match ((custom.getD defaultMessageHandler) msg).2 with
       | .error _ => []
       | .ok _ =>
         [if hasResponseUrl msg.metadata then
            jsOr (metaLookup msg.metadata "request_id") (.vStr msg.request_id)
          else .vStr msg.request_id]) := by
  rw [handleMessage_eq]
  rcases hH : (custom.getD defaultMessageHandler) msg with ⟨hLines, hRes⟩
  cases hRes with
  | error e =>
    have h1 : deliveredRequestIds [Effect.consoleError ("Error handling message: " ++ e)] = [] := rfl
    simp [hH, deliveredRequestIds_append, deliveredRequestIds_handlerLogs, h1]
  | ok c =>
    by_cases hU : hasResponseUrl msg.metadata <;>
      simp [hH, hU, deliveredRequestIds_append, deliveredRequestIds_handlerLogs,
        respondViaHttp_rids, respondToMessage_rids]

theorem countPosts_cons (e : Effect) (l : List Effect) :
    countPosts (e :: l) = (if isHttpPost e then 1 else 0) + countPosts l := by
  by_cases h : isHttpPost e <;> simp [countPosts, List.filter_cons, h, Nat.add_comm]

theorem countPosts_nil : countPosts [] = 0 := rfl

theorem handleMessage_snd (custom : Option HandlerFn) (msg : Message)
    (deliver : FetchOutcome) : (handleMessage custom msg deliver).2 = Except.ok () := by
  rw [handleMessage_eq]
  rcases (custom.getD defaultMessageHandler) msg with ⟨hLines, hRes⟩
  cases hRes with
  | error e => rfl
  | ok c => by_cases hU : hasResponseUrl msg.metadata <;> simp [hU]

/-- Claim C3: dispatch never throws to its caller: the handler failure is
caught (logged, zero POSTs), and a delivery failure — rejection or non-2xx
status — leaves exactly one POST attempt (no retry), logs the status on
the non-2xx case, and is not propagated: `handleMessage` always resolves. -/
theorem handleMessage_never_throws (custom : Option HandlerFn) (msg : Message)
    (deliver : FetchOutcome) :
    (handleMessage custom msg deliver).2 = Except.ok () ∧
    (match ((custom.getD defaultMessageHandler) msg).2, deliver with
     | .error e, _ =>
       countPosts (handleMessage custom msg deliver).1 = 0 ∧
       Effect.consoleError ("Error handling message: " ++ e) ∈
         (handleMessage custom msg deliver).1
     | .ok _, .netError =>
       countPosts (handleMessage custom msg deliver).1 = 1
     | .ok _, .response s =>
       countPosts (handleMessage custom msg deliver).1 = 1 ∧
       (statusOk s = true ∨
         Effect.consoleError ("HTTP response error: " ++ toString s) ∈
           (handleMessage custom msg deliver).1 ∨
         Effect.consoleError ("Response error: " ++ toString s) ∈
           (handleMessage custom msg deliver).1)) := by
  refine ⟨handleMessage_snd custom msg deliver, ?_⟩
  rw [handleMessage_eq]
  rcases hH : (custom.getD defaultMessageHandler) msg with ⟨hLines, hRes⟩
  cases hRes with
  | error e =>
    refine ⟨?_, ?_⟩
    · simp [countPosts_append, countPosts_handlerLogs, countPosts_cons, countPosts_nil,
        isHttpPost]
    · simp
  | ok c =>
    cases deliver with
    | netError =>
      by_cases hU : hasResponseUrl msg.metadata <;>
        simp [hU, respondViaHttp_eq, respondToMessage_eq, countPosts_append,
          countPosts_handlerLogs, countPosts_cons, countPosts_nil, isHttpPost]
    | response s =>
      by_cases hU : hasResponseUrl msg.metadata <;> by_cases hS : statusOk s <;>
        simp [hU, hS, respondViaHttp_eq, respondToMessage_eq, countPosts_append,
          countPosts_handlerLogs, countPosts_cons, countPosts_nil, isHttpPost]

/-- Claim C10: with `metadata.response_url` bound to a falsy value, the
routing condition evaluates false and a successful dispatch delivers to
the platform respond endpoint with `message.request_id`, exactly as when
`response_url` is absent (the discriminator is truthiness, not
presence). -/
theorem handleMessage_falsy_response_url (custom : Option HandlerFn) (msg : Message)
    (deliver : FetchOutcome) (l : List (String × JsValue)) (v : JsValue)
    (hm : msg.metadata = some l) (hv : l.lookup "response_url" = some v)
    (hf : jsTruthy v = false) :
    hasResponseUrl msg.metadata = false ∧
    (match ((custom.getD defaultMessageHandler) msg).2 with
     | .ok _ =>
       postsTo (handleMessage custom msg deliver).1 = [Destination.respondEndpoint] ∧
       deliveredRequestIds (handleMessage custom msg deliver).1 = [JsValue.vStr msg.request_id]
     | .error _ => postsTo (handleMessage custom msg deliver).1 = []) := by
  have hU : hasResponseUrl msg.metadata = false := by
    simp [hasResponseUrl, hm, metaLookup, hv, hf]
  refine ⟨hU, ?_⟩
  rw [handleMessage_eq]
  rcases hH : (custom.getD defaultMessageHandler) msg with ⟨hLines, hRes⟩
  cases hRes with
  | error e =>
    have h1 : postsTo [Effect.consoleError ("Error handling message: " ++ e)] = [] := rfl
    simp [postsTo_append, postsTo_handlerLogs, h1]
  | ok c =>
    simp [hU, postsTo_append, postsTo_handlerLogs, respondToMessage_postsTo,
      deliveredRequestIds_append, deliveredRequestIds_handlerLogs, respondToMessage_rids]

/-- Witness for C10: the concrete message with `response_url` bound to
the empty string, default handler, 200 delivery. -/
theorem handleMessage_falsy_response_url_witness :
    hasResponseUrl (some [("response_url", JsValue.vStr "")]) = false ∧
    (postsTo (handleMessage none
        ⟨"mw", "hi", "rw", "tw", none, some [("response_url", JsValue.vStr "")]⟩
        (.response 200)).1 = [Destination.respondEndpoint] ∧
     deliveredRequestIds (handleMessage none
        ⟨"mw", "hi", "rw", "tw", none, some [("response_url", JsValue.vStr "")]⟩
        (.response 200)).1 = [JsValue.vStr "rw"]) :=
  handleMessage_falsy_response_url none
    ⟨"mw", "hi", "rw", "tw", none, some [("response_url", JsValue.vStr "")]⟩
    (.response 200) [("response_url", JsValue.vStr "")] (JsValue.vStr "")
    rfl (by decide) (by decide)

/-- The acceptance condition in the words of the spec: the header is
present, splits into exactly two space-separated tokens whose first is
case-insensitively `bearer`, and the key token is nonempty after
trimming and string-equal to the configured `frequencyApiKey`. -/
def authClaimAccepts (frequencyApiKey : String) (authHeader : Option String) : Prop :=
  match authHeader with
  | none => False
  | some a =>
    let parts := jsSplitOnSpace a
    parts.length = 2 ∧ jsToLower (parts.getD 0 "") = "bearer" ∧
      jsTrim (parts.getD 1 "") ≠ "" ∧ jsTrim (parts.getD 1 "") = frequencyApiKey

/-- The rejection condition in the words of the spec: the header is
missing, or does not split into exactly two space-separated tokens with
the first case-insensitively `bearer`, or the key is empty after
trimming, or the key differs from the configured `frequencyApiKey`. -/
def authClaimRejects (frequencyApiKey : String) (authHeader : Option String) : Prop :=
  match authHeader with
  | none => True
  | some a =>
    let parts := jsSplitOnSpace a
    ¬(parts.length = 2 ∧ jsToLower (parts.getD 0 "") = "bearer") ∨
      jsTrim (parts.getD 1 "") = "" ∨ jsTrim (parts.getD 1 "") ≠ frequencyApiKey

theorem authClaimRejects_iff_not_accepts (k : String) (h : Option String) :
    authClaimRejects k h ↔ ¬ authClaimAccepts k h := by
  cases h with
  | none => simp [authClaimAccepts, authClaimRejects]
  | some a => simp [authClaimAccepts, authClaimRejects]; tauto

theorem authenticateFrequency_next_iff (k : String) (h : Option String) :
    authenticateFrequency k h = .next ↔ authClaimAccepts k h := by
  cases h with
  | none => simp [authenticateFrequency, authClaimAccepts]
  | some a =>
    simp only [authenticateFrequency, authClaimAccepts, Option.getD_some]
    split_ifs with h1 h2 h3 h4
    · constructor
      · intro hc; cases hc
      · rintro ⟨hlen, -⟩
        rw [h1] at hlen
        exact absurd hlen (by decide)
    · simp only [Bool.or_eq_true, bne_iff_ne] at h2
      constructor
      · intro hc; cases hc
      · rintro ⟨hlen, hbear, -, -⟩
        rcases h2 with h2 | h2 <;> exact h2 (by assumption)
    · constructor
      · intro hc; cases hc
      · rintro ⟨-, -, hne, -⟩
        exact hne h3
    · rw [bne_iff_ne] at h4
      constructor
      · intro hc; cases hc
      · rintro ⟨-, -, -, heq⟩
        exact h4 heq
    · simp only [Bool.or_eq_true, bne_iff_ne, not_or, not_not] at h2
      rw [bne_iff_ne, not_not] at h4
      exact iff_of_true rfl ⟨h2.1, h2.2, h3, h4⟩

/-- Claim C4: the authentication middleware answers 401 exactly when the
header is missing, malformed, trims to an empty key, or carries a key
unequal to the configured `frequencyApiKey`; only a request whose
(trimmed) key equals `frequencyApiKey` passes to the route handler. -/
theorem authenticateFrequency_gate (k : String) (h : Option String) :
    ((∃ m, authenticateFrequency k h = .unauthorized m) ↔ authClaimRejects k h) ∧
    (authenticateFrequency k h = .next ↔ authClaimAccepts k h) := by
  refine ⟨?_, authenticateFrequency_next_iff k h⟩
  rw [authClaimRejects_iff_not_accepts, ← authenticateFrequency_next_iff k h]
  cases hr : authenticateFrequency k h with
  | unauthorized m => simp
  | next => simp

/-- Claim C5: the `/a2a` route answers 400 exactly when both `content`
and `message` are absent or empty; otherwise the text is `content` when
non-empty, else `message`; a throwing/rejecting handler surfaces as a 500
with its message (unlike the silently-dropping poll-path dispatch); a
successful handler's output is returned in-band as `{success: true,
response, timestamp}`; and the route makes no outbound POST, bypassing
the dispatch routing decision. -/
theorem a2aRoute_contract (custom : Option HandlerFn) (nowMs : Nat) (nowTs : String)
    (co me : Option String) :
    countPosts (a2aRoute custom nowMs nowTs ⟨co, me⟩).1 = 0 ∧
    (if strTruthy co || strTruthy me then
       (match (custom.getD defaultMessageHandler)
           (a2aMockMessage nowMs nowTs
             (if strTruthy co then co.getD "" else me.getD "")) with
        | (_, .error e) =>
          (a2aRoute custom nowMs nowTs ⟨co, me⟩).2 =
            .serverError ("Message processing failed: " ++ e)
        | (_, .ok rc) =>
          (a2aRoute custom nowMs nowTs ⟨co, me⟩).2 = .okJson rc nowTs)
     else
       a2aRoute custom nowMs nowTs ⟨co, me⟩ =
         ([], .badRequest
           "Either \x27content\x27 or \x27message\x27 field is required in the request body")) := by
  cases hc : strTruthy co with
  | true =>
    have hne : co.getD "" ≠ "" := by simpa [strTruthy] using hc
    rcases hH : (custom.getD defaultMessageHandler)
        (a2aMockMessage nowMs nowTs (co.getD "")) with ⟨hLines, hRes⟩
    cases hRes <;>
      simp [a2aRoute, hc, hne, hH, countPosts_handlerLogs]
  | false =>
    cases hm : strTruthy me with
    | true =>
      have hne : me.getD "" ≠ "" := by simpa [strTruthy] using hm
      rcases hH : (custom.getD defaultMessageHandler)
          (a2aMockMessage nowMs nowTs (me.getD "")) with ⟨hLines, hRes⟩
      cases hRes <;>
        simp [a2aRoute, hc, hm, hne, hH, countPosts_handlerLogs]
    | false =>
      have heq : me.getD "" = "" := by simpa [strTruthy] using hm
      simp [a2aRoute, hc, hm, heq, countPosts_nil]

/-- Claim C6 is false as stated: with `awaitResponse = false` the call
still reads response body fields — two 200 responses that differ only in
the body (`success: true` versus `success: false` with an error string)
produce different observable behaviour, because `data.success` is read
and a falsy value is logged; both calls nevertheless resolve to the null
sentinel. -/
theorem talkToAgent_reads_body :
    (talkToAgent "t" "c" false 60000 (.response 200 (some ⟨true, "", none⟩))).1 ≠
      (talkToAgent "t" "c" false 60000 (.response 200 (some ⟨false, "boom", none⟩))).1 ∧
    (talkToAgent "t" "c" false 60000 (.response 200 (some ⟨true, "", none⟩))).2 = .ok none ∧
    (talkToAgent "t" "c" false 60000 (.response 200 (some ⟨false, "boom", none⟩))).2 =
      .ok none := by
  refine ⟨by decide, rfl, rfl⟩

/-- Claim C6 (amended): with `awaitResponse = false`, `talkToAgent`
always resolves to the null sentinel without throwing, for every target,
content, timeout and talk outcome; the nested reply content is never
read (the whole output is invariant under changing it) — but the body is
still parsed and its `success` field inspected, which is observable only
in the log line. -/
theorem talkToAgent_no_await_null (targetAgentId content : String) (timeout : Int)
    (r : TalkHttpResult) :
    (talkToAgent targetAgentId content false timeout r).2 = .ok none ∧
    (∀ (s : Nat) (su : Bool) (er : String) (c1 c2 : String),
      talkToAgent targetAgentId content false timeout
          (.response s (some ⟨su, er, some ⟨some ⟨c1⟩⟩⟩)) =
        talkToAgent targetAgentId content false timeout
          (.response s (some ⟨su, er, some ⟨some ⟨c2⟩⟩⟩))) := by
  constructor
  · cases r with
    | netError => rfl
    | response s body =>
      by_cases hS : statusOk s
      · cases body with
        | none => simp [talkToAgent, jsTry, hS]
        | some data => cases hsu : data.success <;> simp [talkToAgent, jsTry, hS, hsu]
      · simp [talkToAgent, jsTry, hS]
  · intro s su er c1 c2
    by_cases hS : statusOk s <;> cases su <;> simp [talkToAgent, jsTry, hS]

/-- Claim C7: `sendMessage` never raises and resolves `true` exactly when
the send POST came back with a 2xx status; a rejected fetch or a non-2xx
status yields `false`. -/
theorem sendMessage_boolean (content : String) (targetAgentId : Option String)
    (outcome : FetchOutcome) :
    (sendMessage content targetAgentId outcome).2 =
      .ok (match outcome with
           | .netError => false
           | .response s => statusOk s) ∧
    ((sendMessage content targetAgentId outcome).2 = .ok true ↔
      ∃ s, outcome = .response s ∧ statusOk s = true) := by
  cases outcome with
  | netError => exact ⟨rfl, by simp [sendMessage, jsTry]⟩
  | response s =>
    refine ⟨rfl, ?_⟩
    by_cases hS : statusOk s <;> simp [sendMessage, jsTry, hS]

/-- Invariant of a started, never-stopped polling loop: the flag is set
and exactly one chain — an armed timer or an in-flight cycle — exists. -/
def loopInv (s : LoopState) : Prop :=
  s.running = true ∧ s.activeTimers.length + s.pollsInFlight = 1

theorem loopInv_step (s : LoopState) (e : AgentEvent) (hInv : loopInv s)
    (hne : e ≠ .evStop) : loopInv (step s e) := by
  obtain ⟨hr, hsum⟩ := hInv
  cases e with
  | evRun => simpa [step, stepRun, hr] using ⟨hr, hsum⟩
  | evStop => exact absurd rfl hne
  | evTimerFire t =>
    by_cases ht : t ∈ s.activeTimers
    · have hlen : (s.activeTimers.erase t).length = s.activeTimers.length - 1 :=
        List.length_erase_of_mem ht
      have hpos : 0 < s.activeTimers.length :=
        List.length_pos.mpr (List.ne_nil_of_mem ht)
      constructor
      · simp [step, stepTimerFire, ht, hr]
      · simp [step, stepTimerFire, ht, hr, hlen]
        omega
    · simpa [step, stepTimerFire, ht] using ⟨hr, hsum⟩
  | evPollDone =>
    by_cases h0 : s.pollsInFlight = 0
    · simpa [step, stepPollDone, h0] using ⟨hr, hsum⟩
    · constructor
      · simp [step, stepPollDone, h0, hr]
      · simp [step, stepPollDone, h0]
        omega

theorem loopInv_foldl (evts : List AgentEvent) (s : LoopState) (hInv : loopInv s)
    (hns : AgentEvent.evStop ∉ evts) : loopInv (evts.foldl step s) := by
  induction evts generalizing s with
  | nil => exact hInv
  | cons e rest ih =>
    simp only [List.foldl_cons]
    have hne : e ≠ .evStop := by
      rintro rfl
      exact hns (List.mem_cons_self _ _)
    exact ih (step s e) (loopInv_step s e hInv hne) fun hm => hns (List.mem_cons_of_mem _ hm)

/-- Claim C8: `run()` while running changes no state and creates no
second polling chain (any stop-free trace that begins with a `run()` —
including one with a second `run()` — keeps exactly one chain, hence at
most one armed timer); `stop()` while not running changes no state;
`stop()` while running clears the flag and cancels the stored timer. -/
theorem run_stop_idempotent :
    (∀ s : LoopState, s.running = true → stepRun s = s) ∧
    (∀ s : LoopState, s.running = false → stepStop s = s) ∧
    (∀ s : LoopState, s.running = true →
      (stepStop s).running = false ∧
      (stepStop s).activeTimers =
        (match s.pollHandle with
         | some t => s.activeTimers.erase t
         | none => s.activeTimers)) ∧
    (∀ evts : List AgentEvent, AgentEvent.evStop ∉ evts →
      activeChains (evts.foldl step (step initialLoopState .evRun)) = 1 ∧
      (evts.foldl step (step initialLoopState .evRun)).activeTimers.length ≤ 1) := by
  refine ⟨?_, ?_, ?_, ?_⟩
  · intro s h
    simp [stepRun, h]
  · intro s h
    simp [stepStop, h]
  · intro s h
    cases hp : s.pollHandle <;> simp [stepStop, h, hp]
  · intro evts hns
    obtain ⟨-, hsum⟩ := loopInv_foldl evts (step initialLoopState .evRun) ⟨rfl, rfl⟩ hns
    exact ⟨hsum, by omega⟩

/-- Witness for C8 at concrete states: a running state with a pending
cycle, the idle initial state, a running state with one armed timer, and
the stop-free trace in which `run()` is called a second time. -/
theorem run_stop_idempotent_witness :
    stepRun ⟨true, none, [], 1, 0⟩ = ⟨true, none, [], 1, 0⟩ ∧
    stepStop initialLoopState = initialLoopState ∧
    ((stepStop ⟨true, some 0, [0], 0, 1⟩).running = false ∧
     (stepStop ⟨true, some 0, [0], 0, 1⟩).activeTimers = [0].erase 0) ∧
    (activeChains ([AgentEvent.evRun].foldl step (step initialLoopState .evRun)) = 1 ∧
     ([AgentEvent.evRun].foldl step (step initialLoopState .evRun)).activeTimers.length ≤ 1) :=
  ⟨run_stop_idempotent.1 _ rfl, run_stop_idempotent.2.1 _ rfl,
   run_stop_idempotent.2.2.1 _ rfl, run_stop_idempotent.2.2.2 [.evRun] (by decide)⟩

theorem dispatchAll_eq_flat (custom : Option HandlerFn) (deliver : Nat → FetchOutcome)
    (msgs : List Message) (i : Nat) :
    dispatchAll custom deliver msgs i =
      (List.enumFrom i msgs).flatMap fun p => (handleMessage custom p.2 (deliver p.1)).1 := by
  induction msgs generalizing i with
  | nil => rfl
  | cons m rest ih => simp [dispatchAll, List.enumFrom, ih]

/-- Claim C9: a successful poll cycle dispatches the fetched messages
sequentially in received order (its effect trace is the in-order
concatenation of the per-message dispatch traces), absent metadata is
defaulted to the empty object, and along any stop-free run at most one
cycle is ever in flight, with a timer armed only while no cycle is in
flight — the next cycle starts only after the current one settles. -/
theorem pollMessages_sequential (custom : Option HandlerFn) (deliver : Nat → FetchOutcome)
    (status : Nat) (b : PollBody) (raws : List RawMessage) (raw : RawMessage)
    (evts : List AgentEvent)
    (hS : statusOk status = true) (hsu : b.success = true) (hm : b.messages = some raws)
    (hraw : raw.metadata = none) (hns : AgentEvent.evStop ∉ evts) :
    (pollMessages custom (.response status (some b)) deliver).1 =
      .getPoll :: ((List.enumFrom 0 (raws.map toMessage)).flatMap
        fun p => (handleMessage custom p.2 (deliver p.1)).1) ∧
    (toMessage raw).metadata = some [] ∧
    ((evts.foldl step (step initialLoopState .evRun)).pollsInFlight ≤ 1 ∧
     (1 ≤ (evts.foldl step (step initialLoopState .evRun)).activeTimers.length →
       (evts.foldl step (step initialLoopState .evRun)).pollsInFlight = 0)) := by
  refine ⟨?_, ?_, ?_⟩
  · rw [← dispatchAll_eq_flat]
    simp [pollMessages, jsTry, hS, hm, hsu]
  · simp [toMessage, hraw]
  · obtain ⟨-, hsum⟩ := loopInv_foldl evts (step initialLoopState .evRun) ⟨rfl, rfl⟩ hns
    exact ⟨by omega, fun h => by omega⟩

/-- Witness for C9: one concrete raw message without metadata, a 200 poll
response, 200 deliveries, and the stop-free trace in which the first
cycle settles and arms the next timer. -/
theorem pollMessages_sequential_witness :
    (pollMessages none
        (.response 200 (some ⟨true, some [⟨"i", "hi", "r", "t", none, none⟩]⟩))
        (fun _ => .response 200)).1 =
      .getPoll :: ((List.enumFrom 0 ([(⟨"i", "hi", "r", "t", none, none⟩ : RawMessage)].map toMessage)).flatMap
        fun p => (handleMessage none p.2 ((fun _ => FetchOutcome.response 200) p.1)).1) ∧
    (toMessage ⟨"i", "hi", "r", "t", none, none⟩).metadata = some [] ∧
    (([AgentEvent.evPollDone].foldl step (step initialLoopState .evRun)).pollsInFlight ≤ 1 ∧
     (1 ≤ ([AgentEvent.evPollDone].foldl step (step initialLoopState .evRun)).activeTimers.length →
       ([AgentEvent.evPollDone].foldl step (step initialLoopState .evRun)).pollsInFlight = 0)) :=
  pollMessages_sequential none (fun _ => .response 200) 200
    ⟨true, some [⟨"i", "hi", "r", "t", none, none⟩]⟩
    [⟨"i", "hi", "r", "t", none, none⟩] ⟨"i", "hi", "r", "t", none, none⟩
    [.evPollDone] (by decide) rfl rfl rfl (by decide)
